import Mathlib

/-!
Shallow embedding of the FlaskBB markup subsystem (flaskbb/markup.py) and of
the URL-safety helpers (flaskbb/utils/http.py), together with theorems that
settle the specification claims about them.

Text is modelled as `List Char`.  External collaborators (the mistune parse
engine, the pluggy hook registry, the pygments highlighter service, Flask's
`url_for` routing function, and `urllib.parse.urlparse`) are modelled either
as explicit function parameters or as small executable model instances, as
documented at each definition.  Character classes (`\w`, whitespace, Unicode
category C) are modelled on their ASCII fragment; every concrete input used
in a theorem below is ASCII, where the model and the source agree.
-/

/- ===================== Text primitives ===================== -/

/-- Word character of the regex class `\w` (ASCII fragment): letters, digits,
underscore. -/
def isWordChar (c : Char) : Bool := c.isAlphanum || c == '_'

/-- Character class `[\w\-]` of MENTION_REGEX: word characters plus hyphen. -/
def isNameChar (c : Char) : Bool := isWordChar c || c == '-'

/-- HTML escaping performed by the parse engine's helper `mistune.escape`:
the four HTML-special characters are replaced by entities. -/
def escapeHtml : List Char → List Char
  | [] => []
  | c :: rest =>
    (if c = '&' then "&amp;".data
     else if c = '<' then "&lt;".data
     else if c = '>' then "&gt;".data
     else if c = '"' then "&quot;".data
     else [c]) ++ escapeHtml rest

/-- Boolean test that `pat` is a leading run of `s`. -/
def isPrefixList : List Char → List Char → Bool
  | [], _ => true
  | _ :: _, [] => false
  | a :: p, b :: s => a == b && isPrefixList p s

/-- Boolean substring occurrence test. -/
def containsSub (pat : List Char) : List Char → Bool
  | [] => pat.isEmpty
  | c :: rest => isPrefixList pat (c :: rest) || containsSub pat rest

/-- The literal `<script>` tag. -/
def scriptTag : List Char := "<script>".data

/- ===================== Mention expander (markup.py lines 50-70) ========== -/

/-- Longest leading run of `[\w\-]` characters and the remainder: the greedy
match of `([\w\-]+)` in MENTION_REGEX. -/
def takeName : List Char → List Char × List Char
  | [] => ([], [])
  | c :: rest =>
    if isNameChar c then (c :: (takeName rest).1, (takeName rest).2)
    else ([], c :: rest)

/-- Embeds `replace_mention_with_linktag` (markup.py lines 53-56): the matched
token `@name` is rewritten to the link markup `[@name](url)` where `url` is
produced by the external routing collaborator (`url_for("user.profile", ...)`
with a relative path), passed here as the parameter `route`. -/
def replace_mention_with_linktag (route : List Char → List Char)
    (name : List Char) : List Char :=
  '[' :: '@' :: name ++ ']' :: '(' :: route name ++ [')']

/-- One left-to-right substitution pass of
`MENTION_REGEX = re.compile(r"\B@([\w\-]+)")` over the source text, as
performed by `re.sub`.  `prevW` records whether the character immediately
before the current position is a word character: since `@` is a non-word
character, `\B` holds at a position holding `@` exactly when the previous
character is not a word character (or the position is the start of the
string).  After a match the scan resumes after the matched span, so the
next `prevW` is the wordness of the last matched character. -/
def mentionSubAux (route : List Char → List Char) : Bool → List Char → List Char
  | _, [] => []
  | prevW, c :: rest =>
    if c == '@' && !prevW then
      let name := (takeName rest).1
      if name.isEmpty then c :: mentionSubAux route false rest
      else
        replace_mention_with_linktag route name ++
          mentionSubAux route (isWordChar (name.getLastD c)) (takeName rest).2
    else c :: mentionSubAux route (isWordChar c) rest
  termination_by _ l => l.length
  decreasing_by
    all_goals
      have hTN : ∀ l : List Char, (takeName l).2.length ≤ l.length := by
        intro l
        induction l with
        | nil => simp [takeName]
        | cons a r ih =>
          simp only [takeName]
          split
          · simpa using Nat.le_succ_of_le ih
          · simp
      simp only [List.length_cons]
      first
        | omega
        | (have h := hTN rest; omega)

/-- Embeds `MENTION_REGEX.sub(replace_mention_with_linktag, src)` as performed
by `process_mentions` (markup.py lines 59-60) on the whole raw source. -/
def mentionSub (route : List Char → List Char) (s : List Char) : List Char :=
  mentionSubAux route false s

/-- Parser state carrying the raw source, as read and written by the
before-parse hook (`mistune.BlockState.src`). -/
structure BlockState where
  src : List Char

/-- Embeds `process_mentions` (markup.py lines 59-60): the before-parse hook
replaces the whole raw source string by its mention-expanded form. -/
def process_mentions (route : List Char → List Char) (state : BlockState) :
    BlockState :=
  { state with src := mentionSub route state.src }

/-- Model of the external routing collaborator: `url_for("user.profile",
username=name, _external=False)` yields the relative profile path. -/
def routeModel (name : List Char) : List Char := "/user/".data ++ name

/- ============ Code block highlighter (markup.py lines 97-109) ============ -/

/-- Exception raised by the external highlighter-resolution service
(`pygments.lexers.get_lexer_by_name`) when no lexer matches the tag. -/
inductive ClassNotFound where
  | mk : ClassNotFound
deriving DecidableEq

/-- Opaque token for a resolved highlighter (a pygments lexer). -/
structure Lexer where
  lexerName : List Char
deriving DecidableEq

/-- Fallback HTML produced for a code block with no usable highlighter:
`"\n<pre><code>%s</code></pre>\n" % mistune.escape(code)`. -/
def codeFallback (code : List Char) : List Char :=
  "\n<pre><code>".data ++ escapeHtml code ++ "</code></pre>\n".data

/-- Embeds `FlaskBBRenderer.block_code` (markup.py lines 97-109).
`get_lexer_by_name` is the external highlighter-resolution service, which
either returns a lexer or raises `ClassNotFound`; `highlightFn` is the
external `pygments.highlight` with an `HtmlFormatter`.  The `Except` result
type records whether any exception escapes the method: the `try/except
ClassNotFound` of the source turns a resolution failure into `lexer = None`,
and `if info:` treats both a missing tag and an empty tag as falsy. -/
def block_code (get_lexer_by_name : List Char → Except ClassNotFound Lexer)
    (highlightFn : List Char → Lexer → List Char)
    (code : List Char) (info : Option (List Char)) :
    Except ClassNotFound (List Char) :=
  let lexer : Option Lexer :=
    match info with
    | some i =>
      if !i.isEmpty then
        match get_lexer_by_name i with
        | Except.ok l => some l
        | Except.error _ => none
      else none
    | none => none
  match lexer with
  | none => Except.ok (codeFallback code)
  | some l => Except.ok (highlightFn code l)

/- ========== Renderer composition (markup.py lines 112-148) =============== -/

/-- Name of a renderer hook (a method such as "block_code" or "table"). -/
abbrev HookName := String

/-- Identifier of one concrete hook implementation. -/
abbrev HookImpl := String

/-- One renderer-override contribution: a renderer class returned through
`flaskbb_load_post_markdown_class` / `flaskbb_load_nonpost_markdown_class`,
modelled by the hooks (methods) that the class itself defines. -/
structure RendererOverride where
  hooks : List (HookName × HookImpl)
deriving DecidableEq

/-- The hook implementation a single override class defines for `h`, if any. -/
def lookupHook (o : RendererOverride) (h : HookName) : Option HookImpl :=
  (o.hooks.find? (fun p => p.1 == h)).map (fun p => p.2)

/-- Method resolution of `type("FlaskBBRenderer", tuple(classes), {})`
(markup.py line 140) for override classes that each directly extend the
common renderer base: Python's C3 linearization scans the base-class tuple
left to right, and the first class defining the method wins. -/
def mroResolve : List RendererOverride → HookName → Option HookImpl
  | [], _ => none
  | o :: rest, h =>
    match lookupHook o h with
    | some v => some v
    | none => mroResolve rest h

/-- Delivery order of the external hook registry: pluggy calls hook
implementations last-registered-first (LIFO) and collects the returned
classes in call order, so `make_renderer` receives the registration-ordered
contribution sequence reversed, with the intrinsic default (registered
first) at the end of the class tuple. -/
def hookClassResults (registered : List RendererOverride) :
    List RendererOverride :=
  registered.reverse

/-- Hook resolution of the renderer composed by `make_renderer` from a
contribution sequence given in registration order (intrinsic default first):
the delivered class tuple is the reversed sequence, and Python method
resolution scans that tuple front to back, so the net effect is a scan of
the contribution sequence from its last element backward. -/
def composeRenderer (contribs : List RendererOverride) (h : HookName) :
    Option HookImpl :=
  mroResolve (hookClassResults contribs) h

/- ========== Pipeline plugin lists (markup.py lines 73-88, 122-134) ======= -/

/-- Name of one mistune plugin. -/
abbrev Plugin := String

/-- Embeds DEFAULT_PLUGINS (markup.py lines 73-88), the intrinsic plugin set,
by the source names of its members in order. -/
def DEFAULT_PLUGINS : List Plugin :=
  ["plugin_mention", "url", "strikethrough", "spoiler", "subscript",
   "superscript", "insert", "mark", "abbr", "def_list", "task_lists",
   "table", "footnotes", "speedup"]

/-- One registered implementation of a markdown-plugins hook
(`flaskbb_load_post_markdown_plugins` / `flaskbb_load_nonpost_markdown_plugins`):
it receives the current contents of the shared mutable `plugins` list and
yields the list's new contents together with its Python return value (`none`
models the conventional `None` return of an in-place mutator). -/
structure PluginsHookImpl where
  run : List Plugin → List Plugin × Option (List Plugin)

/-- Pluggy hook call for the markdown-plugins hooks: every registered
implementation runs on the shared mutable list in turn; the value of the
call is the list of non-None results, not the mutated argument. -/
def callPluginsHook : List PluginsHookImpl → List Plugin →
    List Plugin × List (List Plugin)
  | [], ps => (ps, [])
  | f :: fs, ps =>
    let pr := f.run ps
    let rec_ := callPluginsHook fs pr.1
    (rec_.1,
     match pr.2 with
     | none => rec_.2
     | some v => v :: rec_.2)

/-- Plugin list handed to `make_renderer` for the post pipeline
(markup.py lines 125-127): a copy of DEFAULT_PLUGINS is passed to the hook
call, the call's return value is discarded, and the (possibly mutated) copy
is used. -/
def postPipelinePlugins (impls : List PluginsHookImpl) : List Plugin :=
  (callPluginsHook impls DEFAULT_PLUGINS).1

/-- Value handed to `make_renderer` as `plugins` for the non-post pipeline
(markup.py lines 130-133): a copy of DEFAULT_PLUGINS is passed to the hook
call, but the name `plugins` is then rebound to the hook call's return
value, which is the list of per-implementation results — not the mutated
plugin list. -/
def nonpostPipelinePluginsArg (impls : List PluginsHookImpl) :
    List (List Plugin) :=
  (callPluginsHook impls DEFAULT_PLUGINS).2

/- ========== make_renderer and the external engine (lines 137-148) ======== -/

/-- Trusted pre-escaped HTML value (`markupsafe.Markup`). -/
structure Markup where
  val : List Char
deriving DecidableEq

/-- Error raised during rendering, as propagated by the dynamic source. -/
abbrev RenderError := String

/-- Configuration handed by `make_renderer` to `mistune.create_markdown`. -/
structure MarkdownConfig where
  rendererHook : HookName → Option HookImpl
  plugins : List Plugin
  escape : Bool
  hard_wrap : Bool

/-- The external markdown conversion primitive: `mistune.create_markdown`
followed by calling the produced callable on the source text, abstracted as
a function from configuration and text to HTML or a raised error. -/
abbrev MarkdownEngine := MarkdownConfig → List Char → Except RenderError (List Char)

/-- Embeds `make_renderer` (markup.py lines 137-148): the delivered class
tuple is composed by `type(...)` (modelled by `mroResolve`), the parser is
constructed with `escape=True` and `hard_wrap=True`, and the returned closure
wraps the engine's output in `Markup`. -/
def make_renderer (engine : MarkdownEngine) (classes : List RendererOverride)
    (plugins : List Plugin) : List Char → Except RenderError Markup :=
  fun text =>
    (engine
      { rendererHook := mroResolve classes
        plugins := plugins
        escape := true
        hard_wrap := true } text).map Markup.mk

/-- Contract of the external engine when constructed with raw-HTML escaping
enabled: no unescaped `<script>` survives in any produced output. -/
def EscapingEngine (engine : MarkdownEngine) : Prop :=
  ∀ cfg text out, cfg.escape = true → engine cfg text = Except.ok out →
    containsSub scriptTag out = false

/-- Contract of the external engine: conversion never raises at render time. -/
def TotalEngine (engine : MarkdownEngine) : Prop :=
  ∀ cfg text, ∃ out, engine cfg text = Except.ok out

/-- Contract of the external engine: empty source converts to empty output. -/
def EmptyToEmpty (engine : MarkdownEngine) : Prop :=
  ∀ cfg, engine cfg [] = Except.ok []

/-- Executable model instance of the external engine, used to witness the
engine contracts: it escapes its input exactly when configured with
`escape = true`. -/
def modelEngine : MarkdownEngine :=
  fun cfg text => Except.ok (if cfg.escape then escapeHtml text else text)

/- ========== URL safety (flaskbb/utils/http.py) =========================== -/

/-- Components of a parsed URL that the check reads (`urllib.parse.urlparse`
result restricted to `scheme` and `netloc`). -/
structure UrlInfo where
  scheme : List Char
  netloc : List Char

/-- The external URL parser: `none` models a raised `ValueError` (e.g. an
invalid IPv6 address in the netloc). -/
abbrev UrlParse := List Char → Option UrlInfo

/-- Whitespace stripped by Python `str.strip()` (ASCII/Latin-1 fragment). -/
def isPySpace (c : Char) : Bool :=
  c == ' ' || c == '\t' || c == '\n' || c == '\r' ||
    c.val == 11 || c.val == 12 || (28 ≤ c.val && c.val ≤ 31) || c.val == 133

/-- Python `str.strip()`: remove leading and trailing whitespace. -/
def pyStrip (s : List Char) : List Char :=
  ((s.dropWhile isPySpace).reverse.dropWhile isPySpace).reverse

/-- Test `unicodedata.category(ch)[0] == "C"` on the Latin-1 range: the C0
and C1 control blocks and DEL. -/
def isCtrlCategory (c : Char) : Bool :=
  c.val < 32 || (127 ≤ c.val && c.val ≤ 159)

/-- Embeds `_url_has_allowed_host_and_scheme` (http.py lines 19-48),
parameterized by the external URL parser.  The source indexes `url[0]` and is
only invoked on non-empty urls; on `[]` this model returns false where the
source would raise IndexError. -/
def _url_has_allowed_host_and_scheme (parse : UrlParse) (url : List Char)
    (allowed_hosts : List (List Char)) (require_https : Bool) : Bool :=
  if "///".data.isPrefixOf url then false
  else
    match parse url with
    | none => false
    | some url_info =>
      if url_info.netloc.isEmpty && !url_info.scheme.isEmpty then false
      else if isCtrlCategory (url.headD ' ') then false
      else
        let scheme :=
          if url_info.scheme.isEmpty && !url_info.netloc.isEmpty then "http".data
          else url_info.scheme
        let valid_schemes : List (List Char) :=
          if require_https then ["https".data] else ["http".data, "https".data]
        (url_info.netloc.isEmpty || allowed_hosts.contains url_info.netloc) &&
          (scheme.isEmpty || valid_schemes.contains scheme)

/-- The `allowed_hosts` argument as the source accepts it: `None`, a single
string, a list of strings, or a set of strings. -/
inductive AllowedHosts where
  | nullv : AllowedHosts
  | strv : List Char → AllowedHosts
  | listv : List (List Char) → AllowedHosts
  | setv : List (List Char) → AllowedHosts

/-- Normalization performed by `is_safe_url`: `None` becomes the empty set, a
single string a one-element set, a list is converted to a set (modelled as a
list of its elements). -/
def normalizeHosts : AllowedHosts → List (List Char)
  | AllowedHosts.nullv => []
  | AllowedHosts.strv s => [s]
  | AllowedHosts.listv l => l
  | AllowedHosts.setv l => l

/-- Backslash-to-slash rewrite `url.replace("\\", "/")` (http.py line 80). -/
def backslashToSlash (u : List Char) : List Char :=
  u.map (fun c => if c == '\\' then '/' else c)

/-- Embeds `is_safe_url` (http.py lines 51-81). -/
def is_safe_url (parse : UrlParse) (url : Option (List Char))
    (allowed_hosts : AllowedHosts) (require_https : Bool) : Bool :=
  let stripped := url.map pyStrip
  match stripped with
  | none => false
  | some u =>
    if u.isEmpty then false
    else
      let hosts := normalizeHosts allowed_hosts
      _url_has_allowed_host_and_scheme parse u hosts require_https &&
        _url_has_allowed_host_and_scheme parse (backslashToSlash u) hosts
          require_https

/-- Sample in-place mutator for the markdown-plugins hooks: appends one
plugin to the shared list and returns None, following the hook's contract. -/
def appendMathjaxImpl : PluginsHookImpl :=
  PluginsHookImpl.mk (fun ps => (ps ++ ["mathjax"], none))

/- ===================== Helper lemmas ===================== -/

theorem escapeHtml_no_lt (t : List Char) : '<' ∉ escapeHtml t := by
  induction t with
  | nil => simp [escapeHtml]
  | cons c rest ih =>
    simp only [escapeHtml]
    intro hmem
    rcases List.mem_append.mp hmem with h | h
    · by_cases h1 : c = '&'
      · rw [if_pos h1] at h
        exact absurd h (by decide)
      · rw [if_neg h1] at h
        by_cases h2 : c = '<'
        · rw [if_pos h2] at h
          exact absurd h (by decide)
        · rw [if_neg h2] at h
          by_cases h3 : c = '>'
          · rw [if_pos h3] at h
            exact absurd h (by decide)
          · rw [if_neg h3] at h
            by_cases h4 : c = '"'
            · rw [if_pos h4] at h
              exact absurd h (by decide)
            · rw [if_neg h4] at h
              simp only [List.mem_singleton] at h
              exact h2 h.symm
    · exact ih h

theorem containsSub_head_mem (c : Char) (p s : List Char)
    (h : containsSub (c :: p) s = true) : c ∈ s := by
  induction s with
  | nil => simp [containsSub, List.isEmpty] at h
  | cons b rest ih =>
    simp only [containsSub, Bool.or_eq_true] at h
    rcases h with h | h
    · simp only [isPrefixList, Bool.and_eq_true, beq_iff_eq] at h
      exact h.1 ▸ List.mem_cons_self b rest
    · exact List.mem_cons_of_mem b (ih h)

theorem containsSub_scriptTag_eq_false (s : List Char) (h : '<' ∉ s) :
    containsSub scriptTag s = false := by
  cases hcs : containsSub scriptTag s
  · rfl
  · exact absurd (containsSub_head_mem '<' "script>".data s hcs) h

theorem modelEngine_escaping : EscapingEngine modelEngine := by
  intro cfg text out hesc hok
  simp only [modelEngine, hesc, if_true] at hok
  have hout : escapeHtml text = out := by
    injection hok
  subst hout
  exact containsSub_scriptTag_eq_false _ (escapeHtml_no_lt text)

theorem modelEngine_total : TotalEngine modelEngine := by
  intro cfg text
  exact ⟨if cfg.escape then escapeHtml text else text, rfl⟩

theorem modelEngine_empty : EmptyToEmpty modelEngine := by
  intro cfg
  cases h : cfg.escape <;> simp [modelEngine, h, escapeHtml]

theorem takeName_all (n : List Char) (h : ∀ c ∈ n, isNameChar c = true) :
    takeName n = (n, []) := by
  induction n with
  | nil => rfl
  | cons c r ih =>
    have hc : isNameChar c = true := h c (List.mem_cons_self c r)
    have hr := ih (fun x hx => h x (List.mem_cons_of_mem c hx))
    simp [takeName, hc, hr]

theorem takeName_append_stop (n : List Char)
    (h : ∀ c ∈ n, isNameChar c = true) (c₀ : Char)
    (hc : isNameChar c₀ = false) (t : List Char) :
    takeName (n ++ c₀ :: t) = (n, c₀ :: t) := by
  induction n with
  | nil => simp [takeName, hc]
  | cons c r ih =>
    have hcc : isNameChar c = true := h c (List.mem_cons_self c r)
    have hr := ih (fun x hx => h x (List.mem_cons_of_mem c hx))
    simp [takeName, hcc, hr]

theorem mentionSubAux_no_at (route : List Char → List Char) :
    ∀ l : List Char, '@' ∉ l → ∀ pw : Bool, mentionSubAux route pw l = l := by
  intro l
  induction l with
  | nil =>
    intro _ pw
    simp [mentionSubAux]
  | cons c r ih =>
    intro h pw
    have hcne : ¬(c = '@') := by
      intro he
      exact h (he ▸ List.mem_cons_self c r)
    have hb : (c == '@') = false := by
      simp only [beq_eq_false_iff_ne, ne_eq]
      exact hcne
    have hr : '@' ∉ r := fun hm => h (List.mem_cons_of_mem c hm)
    simp [mentionSubAux, hb, ih hr]

/- ===================== Claim theorems ===================== -/

/-- Claim C1: renderer override composition resolves each hook by searching
the contribution sequence (registration order, intrinsic default first) from
the last element backward, so the override appearing later wins: composing
[Default, PluginA, PluginB] where PluginA and PluginB both define hook X
yields PluginB's implementation of X, composing [Default, PluginA] yields
PluginA's, and the intrinsic default is the fallback for every hook no
plugin defines. -/
theorem composeRenderer_later_contribution_wins
    (d a b : RendererOverride) (hX : HookName) (va vb : HookImpl)
    (ha : lookupHook a hX = some va) (hb : lookupHook b hX = some vb) :
    composeRenderer [d, a, b] hX = some vb ∧
    composeRenderer [d, a] hX = some va ∧
    (∀ h : HookName, lookupHook a h = none → lookupHook b h = none →
      composeRenderer [d, a, b] h = lookupHook d h) := by
  refine ⟨?_, ?_, ?_⟩
  · simp [composeRenderer, hookClassResults, mroResolve, hb]
  · simp [composeRenderer, hookClassResults, mroResolve, ha]
  · intro h h1 h2
    simp only [composeRenderer, hookClassResults]
    simp only [List.reverse_cons, List.reverse_nil, List.nil_append,
      List.cons_append, List.append_assoc]
    simp only [mroResolve, h1, h2]
    cases hd : lookupHook d h <;> simp [hd]

/-- Witness for C1 at concrete overrides: with a default and two plugins all
defining block_code, the later plugin's implementation wins. -/
theorem composeRenderer_later_contribution_wins_witness :
    composeRenderer
      [RendererOverride.mk [("block_code", "default_bc")],
       RendererOverride.mk [("block_code", "pluginA_bc")],
       RendererOverride.mk [("block_code", "pluginB_bc")]] "block_code" =
      some "pluginB_bc" :=
  (composeRenderer_later_contribution_wins
    (RendererOverride.mk [("block_code", "default_bc")])
    (RendererOverride.mk [("block_code", "pluginA_bc")])
    (RendererOverride.mk [("block_code", "pluginB_bc")])
    "block_code" "pluginA_bc" "pluginB_bc" (by decide) (by decide)).1

/-- Claim C2 (code evaluation at the failing configuration): with no
registered markdown-plugins hook implementations, the post pipeline's parser
receives the full intrinsic plugin set, but the non-post pipeline's parser
receives the hook call's (empty) results list instead of DEFAULT_PLUGINS,
because line 131 rebinds `plugins` to the call's return value; an in-place
mutator (returning None) is likewise discarded on the non-post side. -/
theorem nonpost_default_plugins_dropped :
    postPipelinePlugins [] = DEFAULT_PLUGINS ∧
    nonpostPipelinePluginsArg [] = [] ∧
    DEFAULT_PLUGINS ≠ [] ∧
    postPipelinePlugins [appendMathjaxImpl] = DEFAULT_PLUGINS ++ ["mathjax"] ∧
    nonpostPipelinePluginsArg [appendMathjaxImpl] = [] := by
  refine ⟨rfl, rfl, by decide, rfl, rfl⟩

/-- Claim C3: for every code text and language tag, rendering a code block
with an absent tag and with a tag for which the highlighter service raises
ClassNotFound produce the identical fallback (the code HTML-escaped inside a
generic preformatted-code container), and neither case propagates an
error. -/
theorem block_code_unknown_tag_fallback
    (get_lexer_by_name : List Char → Except ClassNotFound Lexer)
    (highlightFn : List Char → Lexer → List Char)
    (code tag : List Char)
    (hmiss : get_lexer_by_name tag = Except.error ClassNotFound.mk) :
    block_code get_lexer_by_name highlightFn code (some tag) =
      Except.ok (codeFallback code) ∧
    block_code get_lexer_by_name highlightFn code none =
      Except.ok (codeFallback code) := by
  constructor
  · simp only [block_code]
    by_cases he : tag.isEmpty
    · simp [he]
    · simp [he, hmiss]
  · rfl

/-- Witness for C3 at a concrete unknown tag and a registry with no
lexers. -/
theorem block_code_unknown_tag_fallback_witness :
    block_code (fun _ => Except.error ClassNotFound.mk) (fun c _ => c)
      "x = 1".data (some "nosuchlang".data) =
      Except.ok (codeFallback "x = 1".data) :=
  (block_code_unknown_tag_fallback (fun _ => Except.error ClassNotFound.mk)
    (fun c _ => c) "x = 1".data "nosuchlang".data rfl).1

/-- Claim C4 counterexample: the claim that already-expanded output contains
no substring the mention matcher would rewrite again is false.  Expanding
"@alice" yields "[@alice](/user/alice)", and running the expansion on that
output rewrites it again (the position before '@' follows '[', a non-word
character, so the regex boundary test of MENTION_REGEX still matches): the
second pass is not the identity on the expanded output. -/
theorem mention_expansion_rematch_counterexample :
    mentionSub routeModel "@alice".data = "[@alice](/user/alice)".data ∧
    mentionSub routeModel (mentionSub routeModel "@alice".data) ≠
      mentionSub routeModel "@alice".data ∧
    mentionSub routeModel (mentionSub routeModel "@alice".data) =
      "[[@alice](/user/alice)](/user/alice)".data := by
  have e1 : mentionSub routeModel "@alice".data = "[@alice](/user/alice)".data := by
    simp [mentionSub, mentionSubAux, takeName, replace_mention_with_linktag,
      routeModel, isNameChar, isWordChar]
  have e2 : mentionSub routeModel "[@alice](/user/alice)".data =
      "[[@alice](/user/alice)](/user/alice)".data := by
    simp [mentionSub, mentionSubAux, takeName, replace_mention_with_linktag,
      routeModel, isNameChar, isWordChar]
  refine ⟨e1, ?_, ?_⟩
  · simp only [e1, e2]
    decide
  · simp only [e1, e2]

/-- Claim C4 (amended): re-running the mention expansion on already-expanded
output DOES re-match, because the emitted link markup places the '@name'
token directly after '[', a non-word character at which the regex
non-boundary test holds; a second pass therefore wraps the link text again
instead of leaving the output fixed. -/
theorem mention_expansion_rematches :
    mentionSub routeModel (mentionSub routeModel "@alice".data) =
      "[[@alice](/user/alice)](/user/alice)".data := by
  simp [mentionSub, mentionSubAux, takeName, replace_mention_with_linktag,
    routeModel, isNameChar, isWordChar]

/-- Claim C5: for every engine satisfying the escape-mode contract of the
external parse collaborator, every renderer-class list, every plugin list
(so regardless of plugin configuration) and every input containing a raw
script tag, a successful render through make_renderer contains no unescaped
script tag, because make_renderer always constructs the parser with
escape enabled. -/
theorem make_renderer_escapes_script (engine : MarkdownEngine)
    (hE : EscapingEngine engine) (classes : List RendererOverride)
    (plugins : List Plugin) (text : List Char) (res : Markup)
    (_hin : containsSub scriptTag text = true)
    (hrun : make_renderer engine classes plugins text = Except.ok res) :
    containsSub scriptTag res.val = false := by
  simp only [make_renderer] at hrun
  cases heng : engine
      { rendererHook := mroResolve classes
        plugins := plugins
        escape := true
        hard_wrap := true } text with
  | error e =>
    rw [heng] at hrun
    simp [Except.map] at hrun
  | ok o =>
    rw [heng] at hrun
    simp only [Except.map, Except.ok.injEq] at hrun
    have hsc := hE _ text o rfl heng
    rw [← hrun]
    exact hsc

/-- Witness for C5: the model engine satisfies the escape contract, and
rendering an input containing a script tag yields output with none. -/
theorem make_renderer_escapes_script_witness :
    containsSub scriptTag (Markup.mk (escapeHtml "a<script>b".data)).val = false :=
  make_renderer_escapes_script modelEngine modelEngine_escaping [] []
    "a<script>b".data (Markup.mk (escapeHtml "a<script>b".data))
    (by decide) rfl

/-- Claim C6: for the input "hello @alice world" the expanded source contains
link markup whose target is exactly the path returned by the routing
collaborator for the username "alice" and whose visible link text is
"@alice", the full matched token including the leading at sign. -/
theorem mention_link_target_and_text (route : List Char → List Char) :
    mentionSub route "hello @alice world".data =
      "hello [@alice](".data ++ route "alice".data ++ ") world".data := by
  simp [mentionSub, mentionSubAux, takeName, replace_mention_with_linktag,
    isNameChar, isWordChar]

/-- Claim C7: the mention rewrite runs on the raw source without consulting
code structure: a mention inside a fenced code block, inside an inline code
span, and in ordinary text are all rewritten to exactly the same link
markup; moreover the before-parse hook applies the rewrite to the entire
raw source of the parser state. -/
theorem mention_rewritten_inside_code_regions (route : List Char → List Char)
    (name : List Char) (hne : name ≠ [])
    (hname : ∀ c ∈ name, isNameChar c = true) :
    mentionSub route ("```\n".data ++ '@' :: name ++ "\n```".data) =
      "```\n".data ++ replace_mention_with_linktag route name ++ "\n```".data ∧
    mentionSub route ('`' :: '@' :: name ++ ['`']) =
      '`' :: replace_mention_with_linktag route name ++ ['`'] ∧
    mentionSub route ('@' :: name) = replace_mention_with_linktag route name ∧
    (∀ st : BlockState, (process_mentions route st).src = mentionSub route st.src) := by
  cases name with
  | nil => exact absurd rfl hne
  | cons n0 ns =>
    have h1 : takeName (n0 :: (ns ++ ['\n', '`', '`', '`'])) =
        (n0 :: ns, ['\n', '`', '`', '`']) :=
      takeName_append_stop (n0 :: ns) hname '\n' (by decide) "```".data
    have h2 : takeName (n0 :: (ns ++ ['`'])) = (n0 :: ns, ['`']) :=
      takeName_append_stop (n0 :: ns) hname '`' (by decide) []
    have h3 : takeName (n0 :: ns) = (n0 :: ns, []) := takeName_all (n0 :: ns) hname
    have h4 : ∀ pw : Bool, mentionSubAux route pw ['\n', '`', '`', '`'] =
        ['\n', '`', '`', '`'] :=
      mentionSubAux_no_at route "\n```".data (by decide)
    have h5 : ∀ pw : Bool, mentionSubAux route pw ['`'] = ['`'] :=
      mentionSubAux_no_at route ['`'] (by decide)
    refine ⟨?_, ?_, ?_, fun st => rfl⟩
    · simp [mentionSub, mentionSubAux, h1, h4, isNameChar, isWordChar]
    · simp [mentionSub, mentionSubAux, h2, h5, isNameChar, isWordChar]
    · simp [mentionSub, mentionSubAux, h3, isNameChar, isWordChar]

/-- Witness for C7 at the concrete username "alice" and the model routing
collaborator. -/
theorem mention_rewritten_inside_code_regions_witness :
    mentionSub routeModel ("```\n".data ++ '@' :: "alice".data ++ "\n```".data) =
      "```\n".data ++ replace_mention_with_linktag routeModel "alice".data ++
        "\n```".data :=
  (mention_rewritten_inside_code_regions routeModel "alice".data (by decide)
    (by decide)).1

/-- Claim C8: under the external conversion primitive's render-time
contracts (total, and empty input to empty output), the function returned by
make_renderer succeeds on every input text, and on the empty string returns
the trusted wrapper of empty HTML content, never an error. -/
theorem make_renderer_total_and_empty (engine : MarkdownEngine)
    (classes : List RendererOverride) (plugins : List Plugin)
    (hTot : TotalEngine engine) (hEmpty : EmptyToEmpty engine) :
    (∀ text : List Char, ∃ m : Markup,
      make_renderer engine classes plugins text = Except.ok m) ∧
    make_renderer engine classes plugins [] = Except.ok (Markup.mk []) := by
  constructor
  · intro text
    obtain ⟨res, hres⟩ := hTot
      { rendererHook := mroResolve classes
        plugins := plugins
        escape := true
        hard_wrap := true } text
    exact ⟨Markup.mk res, by simp [make_renderer, hres, Except.map]⟩
  · simp only [make_renderer]
    rw [hEmpty]
    rfl

/-- Witness for C8: the model engine satisfies both contracts and renders
the empty string to the trusted wrapper of the empty output. -/
theorem make_renderer_total_and_empty_witness :
    make_renderer modelEngine [] [] [] = Except.ok (Markup.mk []) :=
  (make_renderer_total_and_empty modelEngine [] [] modelEngine_total
    modelEngine_empty).2

/-- Claim C9: rendering a code block whose language tag is the empty string
produces exactly the fallback produced with no tag at all, and the
highlighter service is never consulted for the empty tag: the result is
independent of the resolution service and of the highlighter. -/
theorem block_code_empty_tag_skips_highlighter
    (glbn glbn' : List Char → Except ClassNotFound Lexer)
    (highlightFn highlightFn' : List Char → Lexer → List Char)
    (code : List Char) :
    block_code glbn highlightFn code (some []) =
      block_code glbn' highlightFn' code none ∧
    block_code glbn highlightFn code (some []) =
      Except.ok (codeFallback code) :=
  ⟨rfl, rfl⟩

/-- Claim C10: is_safe_url returns false on a missing, empty or
whitespace-only url for every allowed-hosts value and https flag, and a
non-empty url is accepted only if both the (stripped) url and its
backslash-to-slash rewrite pass the host-and-scheme check. -/
theorem is_safe_url_empty_and_conjunction (parse : UrlParse)
    (allowed_hosts : AllowedHosts) (require_https : Bool) :
    is_safe_url parse none allowed_hosts require_https = false ∧
    (∀ ws : List Char, (∀ c ∈ ws, isPySpace c = true) →
      is_safe_url parse (some ws) allowed_hosts require_https = false) ∧
    (∀ u : List Char,
      is_safe_url parse (some u) allowed_hosts require_https = true →
      _url_has_allowed_host_and_scheme parse (pyStrip u)
          (normalizeHosts allowed_hosts) require_https = true ∧
      _url_has_allowed_host_and_scheme parse (backslashToSlash (pyStrip u))
          (normalizeHosts allowed_hosts) require_https = true) := by
  refine ⟨rfl, ?_, ?_⟩
  · intro ws hws
    have h1 : ws.dropWhile isPySpace = [] := List.dropWhile_eq_nil_iff.mpr hws
    have h2 : pyStrip ws = [] := by simp [pyStrip, h1]
    simp [is_safe_url, h2]
  · intro u hu
    simp only [is_safe_url, Option.map] at hu
    by_cases he : (pyStrip u).isEmpty
    · rw [if_pos he] at hu
      exact absurd hu (by decide)
    · rw [if_neg he] at hu
      exact Bool.and_eq_true_iff.mp hu

/-- Witness for C10: a whitespace-only url is rejected under a concrete
parser, empty allowed hosts, and require_https. -/
theorem is_safe_url_empty_and_conjunction_witness :
    is_safe_url (fun _ => none) (some "  ".data) AllowedHosts.nullv true = false :=
  (is_safe_url_empty_and_conjunction (fun _ => none) AllowedHosts.nullv
    true).2.1 "  ".data (by decide)
